import Mathlib

/-!
Shallow embedding of the two source variants of the quran-art repository:

* `src/hada_viz.py`   — hierarchical-markup variant (XML corpus; `parse_qac`,
  `compute_axes`, `draw_surahs`);
* `src/quran_art.py`  — tag-driven flat-table variant (TSV corpus; `main`).

Both variants filter demonstrative tokens, classify each by a spatial axis
(head before/after) and a temporal axis (tense marker in a ±3 window), map the
axis pair through a fixed 3×3 turn table and integrate unit steps into a
polyline per surah.  I/O, XML/TSV parsing, plotting and dependency
bootstrapping are external collaborators and are not modelled; the embedding
starts from the token table each loader produces.
-/

/-- Token row of the hierarchical-markup variant, as built by `parse_qac` in
`hada_viz.py` (lines 127-162): surah/ayah ids, word and token identifiers,
surface form, POS tag and the optional dependency head attribute. -/
structure HToken where
  surah : Nat
  ayah : Nat
  word_id : String
  token_id : String
  form : String
  pos : String
  head : Option String
deriving DecidableEq

/-- Token row of the flat-table variant, as read by `main` in `quran_art.py`
(line 47, `dtype=str`): all columns are strings; a missing head cell (pandas
`NaN`, which never resolves in `index_map`) is modelled as `none`. -/
structure QToken where
  sura : String
  ayah : String
  token : String
  pos : String
  feat : String
  head : Option String
deriving DecidableEq

/-- Character-list helper: the first list occurs at the start of the second. -/
def leadsWith : List Char → List Char → Bool
  | [], _ => true
  | _ :: _, [] => false
  | a :: as, b :: bs => a = b && leadsWith as bs

/-- Character-list helper: the first list occurs somewhere in the second. -/
def subIn (needle : List Char) : List Char → Bool
  | [] => needle.isEmpty
  | c :: rest => leadsWith needle (c :: rest) || subIn needle rest

/-- Substring containment, modelling Python's `needle in hay` on `str` (used
by `str.contains` in `quran_art.py` lines 56, 75 and by `extract_number`). -/
def containsSub (hay needle : String) : Bool := subIn needle.toList hay.toList

/-- Last index at which a key occurs in a list of keys, or `none`.  This is
exactly the lookup behaviour of a Python dict built by
`dict(zip(keys, range(len(keys))))` (`hada_viz.py` line 169) or by a
comprehension `{k: i for i, k in enumerate(keys)}` (`quran_art.py` line 57):
a duplicated key keeps its last position. -/
def lastIndexOf (keys : List String) (k : String) : Option Nat :=
  (keys.enum.reverse.find? (fun p => p.2 = k)).map (fun p => p.1)

/-- Lexicon `DEMONSTRATIVES` of `hada_viz.py` (lines 62-77): the 14 proximal
demonstrative surface forms, each with its grammatical-number class. -/
def DEMONSTRATIVES : List (String × String) :=
  [("هٰذَا", "sg"), ("هٰذِهِ", "sg"), ("هَذَا", "sg"), ("هَذِهِ", "sg"),
   ("هٰذَانِ", "dual"), ("هَذَانِ", "dual"), ("هٰذَيْنِ", "dual"), ("هَذَيْنِ", "dual"),
   ("هٰتَانِ", "dual"), ("هَاتَانِ", "dual"), ("هٰتَيْنِ", "dual"), ("هَاتَيْنِ", "dual"),
   ("هٰؤُلَاءِ", "pl"), ("هَؤُلَاءِ", "pl")]

/-- Membership test `form in DEMONSTRATIVES` of `parse_qac` (line 135). -/
def isDemH (form : String) : Bool :=
  (DEMONSTRATIVES.find? (fun p => p.1 = form)).isSome

/-- Number class `DEMONSTRATIVES.get(f, ('sg',))[0]` (`hada_viz.py` line 199). -/
def numberH (form : String) : String :=
  match DEMONSTRATIVES.find? (fun p => p.1 = form) with
  | some p => p.2
  | none => "sg"

/-- Dict `THICKNESS` of `hada_viz.py` (line 78).  The keys are exactly the
number classes `numberH` can return; the trailing `0` models the `KeyError`
branch of a Python dict access with any other key, which is unreachable. -/
def THICKNESS (n : String) : ℚ :=
  if n = "sg" then 0.6 else if n = "dual" then 1.0 else if n = "pl" then 1.4 else 0

/-- Qualifier filter of the hierarchical variant (`parse_qac` keeps only
tokens whose form is in the lexicon, preserving corpus order). -/
def hadaQualifying (raw : List HToken) : List HToken :=
  raw.filter (fun t => isDemH t.form)

/-- Token-id column of the corpus table used to build the position index. -/
def tokenIds (all : List HToken) : List String := all.map (fun t => t.token_id)

/-- Position index `id_to_idx` of `compute_axes` (`hada_viz.py` lines 168-169):
`dict(zip(all_tokens['token_id'], np.arange(len(all_tokens))))`. -/
def idToIdx (all : List HToken) (k : String) : Option Nat :=
  lastIndexOf (tokenIds all) k

/-- Spatial axis of `compute_axes` (`hada_viz.py` lines 173-181).  Python's
`if head and head in id_to_idx` skips a `None` or empty head; inside the
branch, `id_to_idx[row['token_id']]` would raise `KeyError` were the token's
own id absent from the index — that outcome is modelled as `none`. -/
def spatialH (all : List HToken) (t : HToken) : Option Int :=
  match t.head with
  | none => some 0
  | some h =>
    if h = "" then some 0
    else
      match idToIdx all h with
      | none => some 0
      | some hi =>
        match idToIdx all t.token_id with
        | none => none
        | some ti => some (if hi < ti then -1 else if ti < hi then 1 else 0)

/-- Window slice `all_tokens.iloc[max(0, idx-3):idx+4]` (`hada_viz.py`
line 185).  `idx` is an `Int` because `id_to_idx.get(..., -1)` can
produce `-1`; both slice bounds are then non-negative, matching `iloc`. -/
def hWindowIdx (all : List HToken) (idx : Int) : List HToken :=
  (all.drop (max 0 (idx - 3)).toNat).take ((max 0 (idx + 4)).toNat - (max 0 (idx - 3)).toNat)

/-- Index `idx = id_to_idx.get(row['token_id'], -1)` (`hada_viz.py` line 184). -/
def hIdxOf (all : List HToken) (t : HToken) : Int :=
  match idToIdx all t.token_id with
  | some i => (i : Int)
  | none => -1

/-- Temporal window of a token in the hierarchical variant. -/
def hWindow (all : List HToken) (t : HToken) : List HToken :=
  hWindowIdx all (hIdxOf all t)

/-- Membership test `tag in ('PERF', 'IMPF', 'JUS', 'IMPV')` (line 189). -/
def isTenseTag (s : String) : Bool :=
  s = "PERF" || s = "IMPF" || s = "JUS" || s = "IMPV"

/-- Scan loop of `compute_axes` (`hada_viz.py` lines 187-194): take the first
window row whose tag is a tense marker, `PERF` giving `-1`, the others `1`,
and `break`; `0` when the window has no marker. -/
def firstMarkerTemporal : List HToken → Int
  | [] => 0
  | w :: rest =>
    if isTenseTag w.pos then (if w.pos = "PERF" then -1 else 1)
    else firstMarkerTemporal rest

/-- Temporal axis of `compute_axes` (`hada_viz.py` lines 183-195). -/
def temporalH (all : List HToken) (t : HToken) : Int :=
  firstMarkerTemporal (hWindow all t)

/-- Turn dict shared verbatim by the two variants: `TURN` in `hada_viz.py`
(lines 79-89) and `TURN_MAP` in `quran_art.py` (lines 34-38).  A Python dict
access on a missing key raises `KeyError`; the lookup therefore returns an
`Option`, with `none` standing for that exception. -/
def turnLookup (s t : Int) : Option Int :=
  if s = -1 ∧ t = -1 then some (-60)
  else if s = -1 ∧ t = 0 then some (-30)
  else if s = -1 ∧ t = 1 then some 0
  else if s = 0 ∧ t = -1 then some (-15)
  else if s = 0 ∧ t = 0 then some 0
  else if s = 0 ∧ t = 1 then some 15
  else if s = 1 ∧ t = -1 then some 30
  else if s = 1 ∧ t = 0 then some 60
  else if s = 1 ∧ t = 1 then some 90
  else none

/-- Defaulting lookup `TURN_MAP.get((s, t), 0)` of `quran_art.py` (line 91). -/
def turnQ (s t : Int) : Int := (turnLookup s t).getD 0

/-- Key set of the 9-entry turn dict. -/
def turnKeys : List (Int × Int) :=
  [(-1, -1), (-1, 0), (-1, 1), (0, -1), (0, 0), (0, 1), (1, -1), (1, 0), (1, 1)]

/-- Number extraction `extract_number` of `quran_art.py` (lines 26-32):
lowercase the feature string, then substring-match `dual`/`du`, else
`plur`/`pl`, else singular. -/
def extract_number (feat : String) : String :=
  if containsSub feat.toLower "dual" || containsSub feat.toLower "du" then "dual"
  else if containsSub feat.toLower "plur" || containsSub feat.toLower "pl" then "plural"
  else "singular"

/-- Dict `STROKE_WIDTH` of `quran_art.py` (line 40); the trailing `0` models
the unreachable `KeyError` branch (`extract_number` covers all keys). -/
def STROKE_WIDTH (n : String) : ℚ :=
  if n = "singular" then 0.6 else if n = "dual" then 1.0
  else if n = "plural" then 1.4 else 0

/-- Regex filter `str.contains('PERF|IMPF|JUS|IMPV')` of `quran_art.py`
(line 75): the feature string contains at least one of the four markers. -/
def hasMarkerQ (feat : String) : Bool :=
  containsSub feat "PERF" || containsSub feat "IMPF" ||
    containsSub feat "JUS" || containsSub feat "IMPV"

/-- Position index `index_map = {k: i for i, k in enumerate(df[token_col])}`
of `quran_art.py` (line 57), looked up with `.get(key, None)`. -/
def qIndexMap (raw : List QToken) (k : String) : Option Nat :=
  lastIndexOf (raw.map (fun t => t.token)) k

/-- Spatial axis of `main` in `quran_art.py` (lines 63-73): `idx` is the
row's integer position in the full table (indices are `0..len-1` after
`reset_index`), compared against the head's `index_map` position. -/
def spatialQ (raw : List QToken) (idx : Nat) (t : QToken) : Int :=
  match t.head with
  | none => 0
  | some h =>
    match qIndexMap raw h with
    | none => 0
    | some hp => if hp < idx then -1 else if idx < hp then 1 else 0

/-- Window slice `df.iloc[max(idx-3, 0):min(idx+4, len(df))]` of
`quran_art.py` (line 74); `idx - 3` is truncated natural subtraction,
matching `max(idx-3, 0)` for the non-negative row index. -/
def qWindow (raw : List QToken) (idx : Nat) : List QToken :=
  (raw.drop (idx - 3)).take (min (idx + 4) raw.length - (idx - 3))

/-- Marker rows `verb_rows` of the window, paired with their original table
indices (`verb_rows.index` in pandas keeps the `df` row labels). -/
def qVerbs (raw : List QToken) (idx : Nat) : List (Nat × QToken) :=
  ((qWindow raw idx).enum.filter (fun p => hasMarkerQ p.2.feat)).map
    (fun p => (idx - 3 + p.1, p.2))

/-- Absolute distance between two table indices, `abs(j - idx)`. -/
def natDist (a b : Nat) : Nat := max a b - min a b

/-- Classification of the chosen marker row (`quran_art.py` lines 81-86):
`PERF` substring first, then any of `IMPF`/`JUS`/`IMPV`, else `0`. -/
def classifyQ (feat : String) : Int :=
  if containsSub feat "PERF" then -1
  else if containsSub feat "IMPF" || containsSub feat "JUS" || containsSub feat "IMPV" then 1
  else 0

/-- Row choice `(verb_rows.index - idx).abs().idxmin()` of `quran_art.py`
(line 79): the marker row nearest to `idx` by absolute index distance,
keeping the earliest row on ties (`idxmin` returns the first minimum).
Modelled as a left fold that replaces the best row only on a strictly
smaller distance. -/
def qNearest (raw : List QToken) (idx : Nat) : Option (Nat × QToken) :=
  match qVerbs raw idx with
  | [] => none
  | v :: vs =>
    some (vs.foldl (fun best c => if natDist c.1 idx < natDist best.1 idx then c else best) v)

/-- Temporal axis of `main` in `quran_art.py` (lines 74-86): `0` when the
window holds no marker row, else the classification of the nearest one. -/
def temporalQ (raw : List QToken) (idx : Nat) : Int :=
  match qNearest raw idx with
  | none => 0
  | some v => classifyQ v.2.feat

/-- Modelled from the spec: the temporal-axis rule as claim C1 states it for
the flat-table variant — the first token of the clipped window, scanning
from the window start forward, that carries a tense marker decides the axis
(`PERF` giving `-1`, the others `+1`).  This definition follows the spec's
words and exists only to be compared with `temporalQ`, the rule the code
actually implements. -/
def specFirstScanTemporalQ (raw : List QToken) (idx : Nat) : Int :=
  match (qWindow raw idx).find? (fun w => hasMarkerQ w.feat) with
  | none => 0
  | some w => if containsSub w.feat "PERF" then -1 else 1

/-- Qualifier filter `df[df[pos_col].str.contains('DM', na=False)]` of
`quran_art.py` (line 56), keeping each row's original table index
(`df_dm.iterrows()` yields those indices as `idx`). -/
def qQualifying (raw : List QToken) : List (Nat × QToken) :=
  raw.enum.filter (fun p => containsSub p.2.pos "DM")

/-- Point of a section polyline (spec data model `PathPoint`; stroke widths
are carried in separate lists below, exactly as both scripts keep them). -/
structure PathPoint where
  x : ℝ
  y : ℝ

/-- Degree-to-radian conversion `math.radians` / `np.deg2rad`. -/
noncomputable def radians (d : ℝ) : ℝ := d * Real.pi / 180

/-- Loop body of `draw_surahs` (`hada_viz.py` lines 220-226): per token add
the turn to the heading, advance one unit at the new heading and append the
point. -/
noncomputable def hadaPathAux (heading x y : ℝ) : List ℝ → List PathPoint
  | [] => []
  | turn :: rest =>
    ⟨x + Real.cos (radians (heading + turn)), y + Real.sin (radians (heading + turn))⟩ ::
      hadaPathAux (heading + turn) (x + Real.cos (radians (heading + turn)))
        (y + Real.sin (radians (heading + turn))) rest

/-- Polyline of one surah (`hada_viz.py` lines 216-226): starts at `(0, 0)`
with heading `90` and records the start point first (`pts_x = [x]`). -/
noncomputable def hadaPath (turns : List ℝ) : List PathPoint :=
  ⟨0, 0⟩ :: hadaPathAux 90 0 0 turns

/-- Loop body of `main` (`quran_art.py` lines 106-112): per token one unit
segment from the current point to the next. -/
noncomputable def quranSegsAux (heading x y : ℝ) : List ℝ → List (PathPoint × PathPoint)
  | [] => []
  | turn :: rest =>
    (⟨x, y⟩, ⟨x + Real.cos (radians (heading + turn)), y + Real.sin (radians (heading + turn))⟩) ::
      quranSegsAux (heading + turn) (x + Real.cos (radians (heading + turn)))
        (y + Real.sin (radians (heading + turn))) rest

/-- Segment list of one surah (`quran_art.py` lines 102-112): starts at
`(0, 0)` with heading `90.0`. -/
noncomputable def quranSegs (turns : List ℝ) : List (PathPoint × PathPoint) :=
  quranSegsAux 90 0 0 turns

/-- Euclidean distance between two path points. -/
noncomputable def stepDist (p q : PathPoint) : ℝ :=
  Real.sqrt ((q.x - p.x) ^ 2 + (q.y - p.y) ^ 2)

/-- Sort key of `s_df.sort_values(['ayah', 'word_id'])` (`hada_viz.py`
line 220): ayah is an integer column, `word_id` a string column. -/
def hadaLe (a b : HToken) : Bool :=
  if a.ayah < b.ayah then true
  else if a.ayah = b.ayah then decide (a.word_id ≤ b.word_id)
  else false

/-- Sort key of `data.sort_values([ayah_col, token_col])` (`quran_art.py`
line 101): with `dtype=str` both columns compare as strings. -/
def qLe (a b : Nat × QToken) : Bool :=
  if decide (a.2.ayah < b.2.ayah) then true
  else if a.2.ayah = b.2.ayah then decide (a.2.token ≤ b.2.token)
  else false

/-- Turn angle of one hierarchical-variant token (`hada_viz.py` line 198,
`TURN[(s, t)]`).  The dict access is modelled through the defaulting lookup:
the computed axes always lie in the 9-key domain (`spatialH_mem_range` and
`temporalH_mem_range` below), so the `KeyError` branch — `none` in
`turnLookup` — is unreachable and the default is never taken. -/
def hadaTurnDeg (all : List HToken) (t : HToken) : Int :=
  turnQ ((spatialH all t).getD 0) (temporalH all t)

/-- Per-surah point sequence of `draw_surahs` (`hada_viz.py` lines 206-226):
filter the surah, yield no points for an empty section (blank figure branch),
else sort and integrate the per-token turns. -/
noncomputable def hadaSectionPath (dms : List HToken) (s : Nat) : List PathPoint :=
  if dms.filter (fun t => t.surah = s) = [] then []
  else hadaPath (((dms.filter (fun t => t.surah = s)).mergeSort hadaLe).map
    (fun t => ((hadaTurnDeg dms t : Int) : ℝ)))

/-- Stroke widths attached to the points of one surah in `draw_surahs`
(`hada_viz.py` lines 227-229): a single width
`THICKNESS[s_df.iloc[0]['number']]`, taken from the section's first
qualifying token, is used for the whole polyline of `n + 1` points. -/
def hadaSectionWidths (dms : List HToken) (s : Nat) : List ℚ :=
  match dms.filter (fun t => t.surah = s) with
  | [] => []
  | t0 :: rest => List.replicate (rest.length + 2) (THICKNESS (numberH t0.form))

/-- Full hierarchical-variant pipeline for one surah (`hada_viz.py`
lines 253-263): `parse_qac` filters the demonstratives, `compute_axes` runs
with `all_tokens = df` (the filtered table itself), `draw_surahs` integrates. -/
noncomputable def hadaRun (raw : List HToken) (s : Nat) : List PathPoint :=
  hadaSectionPath (hadaQualifying raw) s

/-- Turn angle of one flat-table token (`quran_art.py` line 91). -/
def qTurnDeg (raw : List QToken) (p : Nat × QToken) : Int :=
  turnQ (spatialQ raw p.1 p.2) (temporalQ raw p.1)

/-- Per-surah segment sequence of `main` (`quran_art.py` lines 97-112):
filter the surah among the demonstrative rows (`sura` compares as a string
against `str(surah)`), skip empty sections, else sort and integrate. -/
noncomputable def quranSectionSegs (raw : List QToken) (s : Nat) : List (PathPoint × PathPoint) :=
  if (qQualifying raw).filter (fun p => p.2.sura = toString s) = [] then []
  else quranSegs ((((qQualifying raw).filter (fun p => p.2.sura = toString s)).mergeSort qLe).map
    (fun p => ((qTurnDeg raw p : Int) : ℝ)))

/-- Width list builder: one stroke width per token, from its own feature
string (`quran_art.py` line 111). -/
def qWidthsOf (toks : List (Nat × QToken)) : List ℚ :=
  toks.map (fun p => STROKE_WIDTH (extract_number p.2.feat))

/-- Per-surah stroke widths of `main` (`quran_art.py` lines 97-111): one
width per segment, in sorted token order. -/
def quranSectionWidths (raw : List QToken) (s : Nat) : List ℚ :=
  qWidthsOf (((qQualifying raw).filter (fun p => p.2.sura = toString s)).mergeSort qLe)

/-- Concrete flat-table corpus separating the two temporal tie-break rules:
a `PERF` row three positions before the demonstrative and an `IMPF` row one
position after it. -/
def exC1 : List QToken :=
  [⟨"1", "1", "w1", "V", "PERF", none⟩,
   ⟨"1", "1", "w2", "N", "NOM", none⟩,
   ⟨"1", "1", "w3", "N", "NOM", none⟩,
   ⟨"1", "1", "w4", "DM", "DEM", none⟩,
   ⟨"1", "2", "w5", "V", "IMPF", none⟩]

/-- Concrete hierarchical corpus with a singular demonstrative followed by a
plural one in the same surah. -/
def exC3 : List HToken :=
  [⟨1, 1, "w1", "t1", "هٰذَا", "DM", none⟩,
   ⟨1, 2, "w2", "t2", "هٰؤُلَاءِ", "DM", none⟩]

/-- Concrete hierarchical corpus whose window's first marker is a `PERF`
row: the demonstrative is the second token, the first token carries `PERF`. -/
def exH : List HToken :=
  [⟨1, 1, "w1", "t1", "x", "PERF", none⟩,
   ⟨1, 1, "w2", "t2", "هٰذَا", "DM", none⟩]

/-- Concrete corpus for the C2 witness: a demonstrative whose head points at
the token id of a non-demonstrative neighbour. -/
def exC2 : List HToken :=
  [⟨1, 1, "w1", "t1", "هٰذَا", "DM", some "t2"⟩,
   ⟨1, 1, "w2", "t2", "x", "N", none⟩]

/-- Concrete corpus for the C4 witness: the demonstrative's head `t2`
resolves to index 1 while the token itself sits at index 0. -/
def exC4 : List HToken :=
  [⟨1, 1, "w1", "t1", "هٰذَا", "DM", some "t2"⟩,
   ⟨1, 1, "w2", "t2", "هٰذِهِ", "DM", none⟩]

/-- Corpus for the C7 witness: a single token, so it sits at both the first
and the last position and its clipped window holds no tense marker. -/
def exC7 : List HToken := [⟨1, 1, "w1", "t1", "هٰذَا", "DM", none⟩]

/-- Any spatial value the hierarchical classifier actually produces lies in
`{-1, 0, 1}`, so the turn-dict access cannot raise `KeyError`. -/
theorem spatialH_mem_range (all : List HToken) (t : HToken) (v : Int)
    (h : spatialH all t = some v) : v = -1 ∨ v = 0 ∨ v = 1 := by
  unfold spatialH at h
  rcases ht : t.head with _ | hd <;> rw [ht] at h <;> dsimp only at h
  · simp only [Option.some.injEq] at h; omega
  · by_cases he : hd = ""
    · rw [if_pos he] at h; simp only [Option.some.injEq] at h; omega
    · rw [if_neg he] at h
      rcases h1 : idToIdx all hd with _ | hi <;> rw [h1] at h <;> dsimp only at h
      · simp only [Option.some.injEq] at h; omega
      · rcases h2 : idToIdx all t.token_id with _ | ti <;> rw [h2] at h <;> dsimp only at h
        · cases h
        · simp only [Option.some.injEq] at h; split_ifs at h <;> omega

/-- Any temporal value the window scan produces lies in `{-1, 0, 1}`. -/
theorem firstMarkerTemporal_mem_range (l : List HToken) :
    firstMarkerTemporal l = -1 ∨ firstMarkerTemporal l = 0 ∨ firstMarkerTemporal l = 1 := by
  induction l with
  | nil => simp [firstMarkerTemporal]
  | cons w rest ih =>
    simp only [firstMarkerTemporal]
    split_ifs with h1 h2
    · simp
    · simp
    · exact ih

/-- Temporal-axis values of the hierarchical variant lie in `{-1, 0, 1}`. -/
theorem temporalH_mem_range (all : List HToken) (t : HToken) :
    temporalH all t = -1 ∨ temporalH all t = 0 ∨ temporalH all t = 1 :=
  firstMarkerTemporal_mem_range _

/-- Turn lookup succeeds exactly on the nine documented keys. -/
theorem turnLookup_isSome_iff (a b : Int) :
    (turnLookup a b).isSome = true ↔ (a, b) ∈ turnKeys := by
  simp only [turnLookup, turnKeys]
  split_ifs with h1 h2 h3 h4 h5 h6 h7 h8 h9 <;>
    simp_all [Prod.ext_iff]

/-- Claim C5: the shared turn table (`TURN` in hada_viz.py, `TURN_MAP` in
quran_art.py) maps each of the nine `(spatial, temporal)` pairs in
`{-1,0,1}²` to exactly the documented degree value; since the lookup is a
function, no other value is produced for those keys. -/
theorem turn_table_maps_all_nine_pairs :
    turnLookup (-1) (-1) = some (-60) ∧ turnLookup (-1) 0 = some (-30) ∧
    turnLookup (-1) 1 = some 0 ∧ turnLookup 0 (-1) = some (-15) ∧
    turnLookup 0 0 = some 0 ∧ turnLookup 0 1 = some 15 ∧
    turnLookup 1 (-1) = some 30 ∧ turnLookup 1 0 = some 60 ∧
    turnLookup 1 1 = some 90 := by decide

/-- Claim C10: outside the nine-key domain the flat-table variant's
`TURN_MAP.get((s, t), 0)` silently yields `0` while the hierarchical
variant's `TURN[(s, t)]` raises `KeyError` (lookup result `none`); when both
axes lie in `{-1, 0, 1}` the lookup succeeds, so neither fallback branch is
reachable. -/
theorem turn_fallback_behaviour (a b : Int) :
    ((a, b) ∉ turnKeys → turnQ a b = 0 ∧ turnLookup a b = none)
    ∧ ((a = -1 ∨ a = 0 ∨ a = 1) → (b = -1 ∨ b = 0 ∨ b = 1) →
        (turnLookup a b).isSome = true) := by
  constructor
  · intro h
    have hn : turnLookup a b = none := by
      rcases ho : turnLookup a b with _ | v
      · rfl
      · exact absurd ((turnLookup_isSome_iff a b).mp (by rw [ho]; rfl)) h
    exact ⟨by rw [turnQ, hn]; rfl, hn⟩
  · intro ha hb
    rcases ha with rfl | rfl | rfl <;> rcases hb with rfl | rfl | rfl <;> decide

/-- Witness for C10 at concrete keys: `(5, 7)` is outside the table domain,
`(1, 1)` inside. -/
theorem turn_fallback_behaviour_witness :
    turnQ 5 7 = 0 ∧ turnLookup 5 7 = none ∧ (turnLookup 1 1).isSome = true :=
  ⟨((turn_fallback_behaviour 5 7).1 (by decide)).1,
   ((turn_fallback_behaviour 5 7).1 (by decide)).2,
   (turn_fallback_behaviour 1 1).2 (by decide) (by decide)⟩

/-- Scan loop of the hierarchical variant expressed through `List.find?`:
the first window row carrying a tense marker decides the result. -/
theorem firstMarkerTemporal_eq_find (l : List HToken) :
    firstMarkerTemporal l =
      match l.find? (fun u => isTenseTag u.pos) with
      | none => 0
      | some w => if w.pos = "PERF" then -1 else 1 := by
  induction l with
  | nil => rfl
  | cons a rest ih =>
    by_cases ha : isTenseTag a.pos
    · rw [List.find?_cons_of_pos (p := fun u => isTenseTag u.pos) rest ha]
      simp only [firstMarkerTemporal, if_pos ha]
    · rw [List.find?_cons_of_neg (p := fun u => isTenseTag u.pos) rest (by simpa using ha)]
      simp only [firstMarkerTemporal, if_neg ha]
      exact ih

/-- Left fold keeping the element of least weight returns a member of the
seed-plus-list. -/
theorem foldl_min_mem {α : Type} (w : α → Nat) (l : List α) :
    ∀ a : α, l.foldl (fun best c => if w c < w best then c else best) a ∈ a :: l := by
  induction l with
  | nil => intro a; simp
  | cons c rest ih =>
    intro a
    have h := ih (if w c < w a then c else a)
    rcases List.mem_cons.mp h with h1 | h1
    · rw [List.foldl_cons, h1]
      split_ifs <;> simp
    · simp [List.foldl_cons, List.mem_cons.mpr (Or.inr (List.mem_cons.mpr (Or.inr h1)))]

/-- Left fold keeping the element of least weight is minimal over the
seed-plus-list. -/
theorem foldl_min_le {α : Type} (w : α → Nat) (l : List α) :
    ∀ a u : α, u ∈ a :: l →
      w (l.foldl (fun best c => if w c < w best then c else best) a) ≤ w u := by
  induction l with
  | nil =>
    intro a u hu
    rcases List.mem_cons.mp hu with rfl | h1
    · simp
    · cases h1
  | cons c rest ih =>
    intro a u hu
    have hseed : ∀ b : α,
        w (rest.foldl (fun best c => if w c < w best then c else best) b) ≤ w b :=
      fun b => ih b b (List.mem_cons.mpr (Or.inl rfl))
    have hpa : w (if w c < w a then c else a) ≤ w a := by split_ifs with hc <;> omega
    have hpc : w (if w c < w a then c else a) ≤ w c := by split_ifs with hc <;> omega
    rcases List.mem_cons.mp hu with rfl | h1
    · exact le_trans (hseed _) hpa
    · rcases List.mem_cons.mp h1 with rfl | h2
      · exact le_trans (hseed _) hpc
      · exact ih _ u (List.mem_cons.mpr (Or.inr h2))

/-- Counterexample to claim C1: in the flat-table variant (`quran_art.py`
lines 74-86), for the corpus `exC1` and the demonstrative at table index 3,
the first tense marker of the window scanning forward is the `PERF` row at
index 0, so the rule stated by the claim yields `-1`; the code instead picks
the nearest marker by absolute distance — the `IMPF` row at index 4 — and
yields `+1`. -/
theorem temporal_first_scan_refuted :
    (qWindow exC1 3).find? (fun w => hasMarkerQ w.feat) =
      some ⟨"1", "1", "w1", "V", "PERF", none⟩
    ∧ specFirstScanTemporalQ exC1 3 = -1
    ∧ temporalQ exC1 3 = 1 := by decide

/-- Claim C1 (amended): the first-match-scanning-forward rule holds only in
the hierarchical-markup variant — there, when the position window holds a
tense marker, the first one (window start forward) decides the temporal
axis, `PERF` giving `-1` and `IMPF`/`JUS`/`IMPV` giving `+1`.  The
flat-table variant instead selects the marker row nearest to the token by
absolute index distance (earliest row on ties) and classifies that row. -/
theorem temporal_rule_per_variant :
    (∀ (all : List HToken) (t : HToken) (w : HToken),
      (hWindow all t).find? (fun u => isTenseTag u.pos) = some w →
      temporalH all t = if w.pos = "PERF" then -1 else 1)
    ∧ (∀ (raw : List QToken) (idx : Nat) (v : Nat × QToken),
      qNearest raw idx = some v →
      v ∈ qVerbs raw idx
      ∧ (∀ u ∈ qVerbs raw idx, natDist v.1 idx ≤ natDist u.1 idx)
      ∧ temporalQ raw idx = classifyQ v.2.feat) := by
  constructor
  · intro all t w hw
    rw [temporalH, firstMarkerTemporal_eq_find, hw]
  · intro raw idx v hv
    have ht : temporalQ raw idx = classifyQ v.2.feat := by
      rw [temporalQ, hv]
    rcases hverbs : qVerbs raw idx with _ | ⟨a, vs⟩
    · rw [qNearest, hverbs] at hv; cases hv
    · rw [qNearest, hverbs] at hv
      have hfold := Option.some.inj hv
      refine ⟨?_, ?_, ht⟩
      · rw [← hfold]
        exact foldl_min_mem (fun p => natDist p.1 idx) vs a
      · intro u hu
        rw [← hfold]
        exact foldl_min_le (fun p => natDist p.1 idx) vs a u hu

/-- Witness for the amended C1 at concrete corpora: the hierarchical side on
`exH` (first window marker `PERF`), the flat-table side on `exC1` (nearest
marker is the `IMPF` row at index 4, distance 1). -/
theorem temporal_rule_per_variant_witness :
    (temporalH exH ⟨1, 1, "w2", "t2", "هٰذَا", "DM", none⟩ =
      if ("PERF" : String) = "PERF" then -1 else 1)
    ∧ (4, (⟨"1", "2", "w5", "V", "IMPF", none⟩ : QToken)) ∈ qVerbs exC1 3
    ∧ temporalQ exC1 3 = classifyQ (⟨"1", "2", "w5", "V", "IMPF", none⟩ : QToken).feat :=
  ⟨temporal_rule_per_variant.1 exH ⟨1, 1, "w2", "t2", "هٰذَا", "DM", none⟩
      ⟨1, 1, "w1", "t1", "x", "PERF", none⟩ (by decide),
   (temporal_rule_per_variant.2 exC1 3 (4, ⟨"1", "2", "w5", "V", "IMPF", none⟩)
      (by decide)).1,
   (temporal_rule_per_variant.2 exC1 3 (4, ⟨"1", "2", "w5", "V", "IMPF", none⟩)
      (by decide)).2.2⟩

/-- Lookup in the last-wins position index fails exactly when the key is
absent from the key column. -/
theorem lastIndexOf_eq_none (keys : List String) (k : String)
    (h : ∀ s ∈ keys, s ≠ k) : lastIndexOf keys k = none := by
  unfold lastIndexOf
  rw [List.find?_eq_none.mpr]
  · rfl
  · intro p hp
    have hp2 : p ∈ keys.enum := List.mem_reverse.mp hp
    have hs : p.2 ∈ keys := by
      rw [← List.enum_map_snd keys]
      exact List.mem_map.mpr ⟨p, hp2, rfl⟩
    simpa using h p.2 hs

/-- Claim C2: in the hierarchical-markup variant the wiring of `__main__`
(`hada_viz.py` lines 257-260) passes the demonstrative table itself as
`all_tokens`, so the position index and the ±3 window of `compute_axes` are
built from the filtered demonstratives only.  Consequently a qualifying
token whose head refers to a token that is not a lexicon demonstrative gets
spatial `0` (the head is absent from the index), and every token of the
temporal window is itself a lexicon demonstrative. -/
theorem hierarchical_index_demonstratives_only
    (raw : List HToken) (t : HToken) (h : String)
    (hh : t.head = some h) (hne : h ≠ "")
    (hnd : ∀ u ∈ raw, u.token_id = h → isDemH u.form = false) :
    spatialH (hadaQualifying raw) t = some 0
    ∧ ∀ w ∈ hWindow (hadaQualifying raw) t, isDemH w.form = true := by
  constructor
  · have hnone : idToIdx (hadaQualifying raw) h = none := by
      apply lastIndexOf_eq_none
      intro s hs
      rcases List.mem_map.mp hs with ⟨u, hu, rfl⟩
      have hu2 := List.mem_filter.mp hu
      intro heq
      have hx := hnd u hu2.1 heq
      rw [hx] at hu2
      exact Bool.false_ne_true hu2.2
    unfold spatialH
    rw [hh]
    dsimp only
    rw [if_neg hne, hnone]
  · intro w hw
    have hw2 : w ∈ hadaQualifying raw := by
      unfold hWindow hWindowIdx at hw
      exact List.mem_of_mem_drop (List.mem_of_mem_take hw)
    exact (List.mem_filter.mp hw2).2

/-- Witness for C2: on `exC2` the demonstrative's head `t2` names a
non-demonstrative token, so spatial is `0`, and the sole window member (the
demonstrative itself) is in the lexicon. -/
theorem hierarchical_index_demonstratives_only_witness :
    spatialH (hadaQualifying exC2) ⟨1, 1, "w1", "t1", "هٰذَا", "DM", some "t2"⟩ = some 0
    ∧ isDemH "هٰذَا" = true :=
  ⟨(hierarchical_index_demonstratives_only exC2
      ⟨1, 1, "w1", "t1", "هٰذَا", "DM", some "t2"⟩ "t2" rfl (by decide) (by decide)).1,
   (hierarchical_index_demonstratives_only exC2
      ⟨1, 1, "w1", "t1", "هٰذَا", "DM", some "t2"⟩ "t2" rfl (by decide) (by decide)).2
      ⟨1, 1, "w1", "t1", "هٰذَا", "DM", some "t2"⟩ (by decide)⟩

/-- Counterexample to claim C3: in the hierarchical-markup variant
(`draw_surahs`, `hada_viz.py` lines 227-229) stroke width is assigned once
per section, from the section's first token.  On `exC3` — a singular
demonstrative followed by a plural one in surah 1 — the point recorded for
the plural token (index 2 of the point sequence) carries width `0.6`, the
singular class width, not its own class width `1.4`. -/
theorem stroke_width_per_point_refuted :
    (hadaSectionWidths exC3 1).get? 2 = some 0.6
    ∧ THICKNESS (numberH "هٰؤُلَاءِ") = 1.4
    ∧ (0.6 : ℚ) ≠ 1.4 :=
  ⟨rfl, rfl, by norm_num⟩

/-- Claim C3 (amended): only the flat-table variant assigns stroke width per
point — each entry of its width list is the width of the corresponding
token's own number class.  The hierarchical-markup variant assigns one
stroke width per section, taken from the number class of the section's
first qualifying token, to every point of the section polyline. -/
theorem stroke_width_assignment
    (toks : List (Nat × QToken)) (i : Nat)
    (dms : List HToken) (t0 : HToken) (rest : List HToken) (s : Nat)
    (hsec : dms.filter (fun t => t.surah = s) = t0 :: rest) :
    (qWidthsOf toks)[i]? = (toks[i]?).map (fun p => STROKE_WIDTH (extract_number p.2.feat))
    ∧ ∀ w ∈ hadaSectionWidths dms s, w = THICKNESS (numberH t0.form) := by
  constructor
  · exact List.getElem?_map ..
  · intro w hw
    unfold hadaSectionWidths at hw
    rw [hsec] at hw
    exact List.eq_of_mem_replicate hw

/-- Witness for the amended C3: the flat-table width list of the singleton
token list reports that token's own plural width at index 0, and on `exC3`
every point width of surah 1 equals the first token's singular width. -/
theorem stroke_width_assignment_witness :
    (qWidthsOf [(0, ⟨"1", "1", "w1", "DM", "DEM|pl", none⟩)])[0]? =
      ([((0 : Nat), (⟨"1", "1", "w1", "DM", "DEM|pl", none⟩ : QToken))][0]?).map
        (fun p => STROKE_WIDTH (extract_number p.2.feat))
    ∧ (0.6 : ℚ) = THICKNESS (numberH (⟨1, 1, "w1", "t1", "هٰذَا", "DM", none⟩ : HToken).form) :=
  ⟨(stroke_width_assignment [(0, ⟨"1", "1", "w1", "DM", "DEM|pl", none⟩)] 0 exC3
      ⟨1, 1, "w1", "t1", "هٰذَا", "DM", none⟩ [⟨1, 2, "w2", "t2", "هٰؤُلَاءِ", "DM", none⟩] 1
      (by decide)).1,
   (stroke_width_assignment [(0, ⟨"1", "1", "w1", "DM", "DEM|pl", none⟩)] 0 exC3
      ⟨1, 1, "w1", "t1", "هٰذَا", "DM", none⟩ [⟨1, 2, "w2", "t2", "هٰؤُلَاءِ", "DM", none⟩] 1
      (by decide)).2 0.6 (by
        show (0.6 : ℚ) ∈ (0.6 : ℚ) :: [(0.6 : ℚ), (0.6 : ℚ)]
        exact List.mem_cons_self _ _)⟩

/-- Claim C4: the spatial-axis rule of both variants — an absent or
unresolvable head reference yields spatial `0`; a resolved head at index
`hpos` yields `-1` when it precedes the token's index, `+1` when it
follows, and `0` (returned, not raised) in the degenerate equal-index
case. -/
theorem spatial_axis_rule
    (all : List HToken) (t : HToken) (p : Nat)
    (hp : idToIdx all t.token_id = some p)
    (raw : List QToken) (u : QToken) (j : Nat) :
    ((t.head = none → spatialH all t = some 0)
      ∧ (t.head = some "" → spatialH all t = some 0)
      ∧ (∀ h, t.head = some h → idToIdx all h = none → spatialH all t = some 0)
      ∧ (∀ h hpos, t.head = some h → h ≠ "" → idToIdx all h = some hpos →
          spatialH all t = some (if hpos < p then -1 else if p < hpos then 1 else 0)))
    ∧ ((u.head = none → spatialQ raw j u = 0)
      ∧ (∀ h, u.head = some h → qIndexMap raw h = none → spatialQ raw j u = 0)
      ∧ (∀ h hpos, u.head = some h → qIndexMap raw h = some hpos →
          spatialQ raw j u = if hpos < j then -1 else if j < hpos then 1 else 0)) := by
  refine ⟨⟨?_, ?_, ?_, ?_⟩, ⟨?_, ?_, ?_⟩⟩
  · intro hh; unfold spatialH; rw [hh]
  · intro hh; unfold spatialH; rw [hh]; dsimp only; rw [if_pos rfl]
  · intro h hh hn
    unfold spatialH; rw [hh]; dsimp only
    by_cases he : h = ""
    · rw [if_pos he]
    · rw [if_neg he, hn]
  · intro h hpos hh hne hres
    unfold spatialH; rw [hh]; dsimp only
    rw [if_neg hne, hres]
    dsimp only
    rw [hp]
  · intro hh; unfold spatialQ; rw [hh]
  · intro h hh hn; unfold spatialQ; rw [hh]; dsimp only; rw [hn]
  · intro h hpos hh hres; unfold spatialQ; rw [hh]; dsimp only; rw [hres]

/-- Witness for C4: on `exC4` the resolved head follows the token
(`hpos = 1 > p = 0`, spatial `+1`), and a flat-table token without a head
gets spatial `0`. -/
theorem spatial_axis_rule_witness :
    spatialH exC4 ⟨1, 1, "w1", "t1", "هٰذَا", "DM", some "t2"⟩ =
      some (if 1 < 0 then -1 else if 0 < 1 then 1 else 0)
    ∧ spatialQ [] 0 ⟨"1", "1", "w1", "DM", "DEM", none⟩ = 0 :=
  ⟨(spatial_axis_rule exC4 ⟨1, 1, "w1", "t1", "هٰذَا", "DM", some "t2"⟩ 0 (by decide)
      [] ⟨"1", "1", "w1", "DM", "DEM", none⟩ 0).1.2.2.2 "t2" 1 rfl (by decide) (by decide),
   (spatial_axis_rule exC4 ⟨1, 1, "w1", "t1", "هٰذَا", "DM", some "t2"⟩ 0 (by decide)
      [] ⟨"1", "1", "w1", "DM", "DEM", none⟩ 0).2.1 rfl⟩

/-- Unit advance: a step by `(cos h, sin h)` covers Euclidean distance 1. -/
theorem stepDist_unit (x y h : ℝ) :
    stepDist ⟨x, y⟩ ⟨x + Real.cos h, y + Real.sin h⟩ = 1 := by
  unfold stepDist
  dsimp only
  rw [add_sub_cancel_left, add_sub_cancel_left, Real.cos_sq_add_sin_sq, Real.sqrt_one]

/-- Every adjacent pair of the hierarchical integrator's point list, seeded
with an arbitrary state, lies at unit distance. -/
theorem hadaPathAux_chain (heading x y : ℝ) (turns : List ℝ) :
    List.Chain' (fun p q => stepDist p q = 1) (⟨x, y⟩ :: hadaPathAux heading x y turns) := by
  induction turns generalizing heading x y with
  | nil => simp [hadaPathAux]
  | cons turn rest ih =>
    simp only [hadaPathAux]
    rw [List.chain'_cons]
    exact ⟨stepDist_unit x y (radians (heading + turn)), ih (heading + turn) _ _⟩

/-- Every segment the flat-table integrator emits, seeded with an arbitrary
state, has unit length. -/
theorem quranSegsAux_forall (heading x y : ℝ) (turns : List ℝ) :
    List.Forall (fun sg => stepDist sg.1 sg.2 = 1) (quranSegsAux heading x y turns) := by
  induction turns generalizing heading x y with
  | nil => simp [quranSegsAux, List.Forall]
  | cons turn rest ih =>
    simp only [quranSegsAux, List.forall_cons]
    exact ⟨stepDist_unit x y (radians (heading + turn)), ih (heading + turn) _ _⟩

/-- Claim C6: for every section, the hierarchical variant's point sequence
(started at `(0, 0)` with heading 90°) has each successive point at exactly
unit Euclidean distance from its predecessor, and every segment the
flat-table variant draws has exactly unit length; the 1e-6 float tolerance
of the spec is subsumed by exact equality over `ℝ`. -/
theorem path_unit_steps (raw : List HToken) (rawQ : List QToken) (s : Nat) :
    List.Chain' (fun p q => stepDist p q = 1) (hadaRun raw s)
    ∧ List.Forall (fun sg => stepDist sg.1 sg.2 = 1) (quranSectionSegs rawQ s) := by
  constructor
  · unfold hadaRun hadaSectionPath
    split_ifs
    · simp
    · exact hadaPathAux_chain 90 0 0 _
  · unfold quranSectionSegs
    split_ifs
    · simp [List.Forall]
    · exact quranSegsAux_forall 90 0 0 _

/-- Window rows without a tense marker leave the hierarchical scan at 0. -/
theorem firstMarkerTemporal_eq_zero (l : List HToken)
    (h : ∀ w ∈ l, isTenseTag w.pos = false) : firstMarkerTemporal l = 0 := by
  induction l with
  | nil => rfl
  | cons a rest ih =>
    have ha := h a (List.mem_cons_self a rest)
    simp only [firstMarkerTemporal, ha]
    exact ih (fun w hw => h w (List.mem_cons.mpr (Or.inr hw)))

/-- Claim C7: at the first or last corpus position, both variants' temporal
windows clip to the available bounds — every window row is a corpus row, no
out-of-range access — and a clipped window without tense markers still
yields temporal 0. -/
theorem window_clips_at_bounds
    (all : List HToken) (t : HToken) (i : Nat)
    (_hi : idToIdx all t.token_id = some i)
    (_hb : i = 0 ∨ i + 1 = all.length)
    (hno : ∀ w ∈ hWindow all t, isTenseTag w.pos = false)
    (raw : List QToken) (j : Nat)
    (_hb2 : j = 0 ∨ j + 1 = raw.length)
    (hno2 : ∀ w ∈ qWindow raw j, hasMarkerQ w.feat = false) :
    ((∀ w ∈ hWindow all t, w ∈ all) ∧ temporalH all t = 0)
    ∧ ((∀ w ∈ qWindow raw j, w ∈ raw) ∧ temporalQ raw j = 0) := by
  refine ⟨⟨?_, ?_⟩, ⟨?_, ?_⟩⟩
  · intro w hw
    unfold hWindow hWindowIdx at hw
    exact List.mem_of_mem_drop (List.mem_of_mem_take hw)
  · exact firstMarkerTemporal_eq_zero _ hno
  · intro w hw
    unfold qWindow at hw
    exact List.mem_of_mem_drop (List.mem_of_mem_take hw)
  · have hverbs : qVerbs raw j = [] := by
      unfold qVerbs
      rw [List.filter_eq_nil_iff.mpr]
      · rfl
      · intro p hp
        have hp2 : p.2 ∈ qWindow raw j := by
          rw [← List.enum_map_snd (qWindow raw j)]
          exact List.mem_map.mpr ⟨p, hp, rfl⟩
        simpa using hno2 p.2 hp2
    rw [temporalQ, qNearest, hverbs]

/-- Witness for C7 on single-token corpora: the clipped windows contain no
marker and both temporal axes are 0. -/
theorem window_clips_at_bounds_witness :
    temporalH exC7 ⟨1, 1, "w1", "t1", "هٰذَا", "DM", none⟩ = 0
    ∧ temporalQ [⟨"1", "1", "w1", "DM", "DEM", none⟩] 0 = 0 :=
  ⟨(window_clips_at_bounds exC7 ⟨1, 1, "w1", "t1", "هٰذَا", "DM", none⟩ 0 (by decide)
      (Or.inl rfl) (by decide) [⟨"1", "1", "w1", "DM", "DEM", none⟩] 0 (Or.inl rfl)
      (by decide)).1.2,
   (window_clips_at_bounds exC7 ⟨1, 1, "w1", "t1", "هٰذَا", "DM", none⟩ 0 (by decide)
      (Or.inl rfl) (by decide) [⟨"1", "1", "w1", "DM", "DEM", none⟩] 0 (Or.inl rfl)
      (by decide)).2.2⟩

/-- Claim C8: a section with zero qualifying tokens yields an empty point
sequence, empty width data and no failure, in both variants (the
hierarchical variant renders its blank figure from no points, the
flat-table variant skips the surah). -/
theorem empty_section_empty_path
    (raw : List HToken) (s : Nat) (rawQ : List QToken) (s2 : Nat)
    (h1 : (hadaQualifying raw).filter (fun t => t.surah = s) = [])
    (h2 : (qQualifying rawQ).filter (fun p => p.2.sura = toString s2) = []) :
    hadaRun raw s = [] ∧ hadaSectionWidths (hadaQualifying raw) s = []
    ∧ quranSectionSegs rawQ s2 = [] ∧ quranSectionWidths rawQ s2 = [] := by
  refine ⟨?_, ?_, ?_, ?_⟩
  · unfold hadaRun hadaSectionPath
    rw [if_pos h1]
  · unfold hadaSectionWidths
    rw [h1]
  · unfold quranSectionSegs
    rw [if_pos h2]
  · unfold quranSectionWidths
    rw [h2, List.mergeSort_nil]
    rfl

/-- Witness for C8 on empty corpora: every section is empty and all outputs
are the empty sequence. -/
theorem empty_section_empty_path_witness :
    hadaRun [] 1 = [] ∧ hadaSectionWidths (hadaQualifying []) 1 = []
    ∧ quranSectionSegs [] 1 = [] ∧ quranSectionWidths [] 1 = [] :=
  empty_section_empty_path [] 1 [] 1 rfl rfl

/-- Claim C9: the whole transform pipeline — filter, classify, map,
integrate, including the width data — is a pure function of the input token
sequence in both variants: identical inputs give identical per-section
outputs. -/
theorem pipeline_deterministic
    (raw raw' : List HToken) (rawQ rawQ' : List QToken) (s : Nat)
    (h : raw = raw') (h2 : rawQ = rawQ') :
    hadaRun raw s = hadaRun raw' s
    ∧ hadaSectionWidths (hadaQualifying raw) s = hadaSectionWidths (hadaQualifying raw') s
    ∧ quranSectionSegs rawQ s = quranSectionSegs rawQ' s
    ∧ quranSectionWidths rawQ s = quranSectionWidths rawQ' s := by
  subst h; subst h2
  exact ⟨rfl, rfl, rfl, rfl⟩

/-- Witness for C9 at a concrete corpus pair. -/
theorem pipeline_deterministic_witness :
    hadaRun exC3 1 = hadaRun exC3 1
    ∧ hadaSectionWidths (hadaQualifying exC3) 1 = hadaSectionWidths (hadaQualifying exC3) 1
    ∧ quranSectionSegs exC1 1 = quranSectionSegs exC1 1
    ∧ quranSectionWidths exC1 1 = quranSectionWidths exC1 1 :=
  pipeline_deterministic exC3 exC3 exC1 exC1 1 rfl rfl
